import Mathlib

/-!
Verification of the adnl-rpc lite-client query engine against its
natural-language specification.  The definitions below are a shallow
embedding of the Rust sources:

* `src/adnl_rpc/src/ton/errors.rs`      — error taxonomy (`QueryError`)
* `src/adnl_rpc/src/ton/connection.rs`  — retrying query protocol
* `src/adnl_rpc/src/ton/last_block.rs`  — chain-head cache
* `src/adnl_rpc/src/ton/mod.rs`         — account-state resolver, key-block walker
* `src/adnl_rpc_models/src/lib.rs`      — wire models (`TransactionId`, ...)
* `src/src/api/state.rs`                — subscription notifier tick

External crates (`ton_block`, `ton_types`, the transport) are modelled as
oracle parameters: the repository's own control flow around them is what is
embedded.  Machine integer casts are explicit (`% 2^32` etc.).
-/

namespace AdnlRpc

/-- Error taxonomy from `errors.rs`.  The enum there declares the seven
constructors up to `Unknown`.  The `NotReady` constructor is the one
referenced by `QueryReply::try_into_data` in `connection.rs` line 112;
`errors.rs` itself declares no such variant and its `code()` match has no
arm for it, which `QueryError.code` records by returning `none` there. -/
inductive QueryError where
  | ConnectionError
  | FailedToSerialize
  | LiteServer (code : Int) (message : String)
  | InvalidAccountStateProof
  | InvalidAccountState
  | InvalidBlock
  | NotReady
  | Unknown
deriving DecidableEq

/-- `QueryError::code` from `errors.rs` lines 23-34.  The source match has
exactly seven arms (codes 1, 2, 10, 20, 21, 30, 666); there is no arm for a
`NotReady` kind, recorded here as `none`. -/
def QueryError.code : QueryError → Option Int
  | .ConnectionError => some 1
  | .FailedToSerialize => some 2
  | .LiteServer _ _ => some 10
  | .InvalidAccountStateProof => some 20
  | .InvalidAccountState => some 21
  | .InvalidBlock => some 30
  | .Unknown => some 666
  | .NotReady => none

/-- `QueryReply` from `connection.rs`: a successful query either carries data
or reports that the peer has not caught up yet. -/
inductive QueryReply (T : Type) where
  | Data (data : T)
  | NotReady
deriving DecidableEq

/-- `QueryReply::has_data` from `connection.rs` lines 102-107. -/
def QueryReply.has_data : QueryReply T → Bool
  | .Data _ => true
  | .NotReady => false

/-- `QueryReply::try_into_data` from `connection.rs` lines 109-114:
`NotReady` becomes the error `QueryError::NotReady`. -/
def QueryReply.try_into_data : QueryReply T → Except QueryError T
  | .Data d => .ok d
  | .NotReady => .error .NotReady

/-- `TransactionId` from `adnl_rpc_models/src/lib.rs` lines 29-35:
logical time (u64) plus a 256-bit hash. -/
structure TransactionId where
  lt : Nat
  hash : Nat
deriving DecidableEq

/-- The `PartialEq` implementation from `adnl_rpc_models/src/lib.rs`
lines 37-41: compares `lt` only. -/
def TransactionId.eqImpl (a b : TransactionId) : Bool :=
  a.lt == b.lt

/-- The `Ord` implementation from `adnl_rpc_models/src/lib.rs` lines 49-53:
compares `lt` only (`partial_cmp` wraps `cmp` in `Some`). -/
def TransactionId.cmp (a b : TransactionId) : Ordering :=
  compare a.lt b.lt

/-- `MAX_RETIRES` from `connection.rs` line 48 (sic, source spelling). -/
def MAX_RETIRES : Nat := 3

/-- `RETRY_INTERVAL` from `connection.rs` line 49, in milliseconds. -/
def RETRY_INTERVAL : Nat := 100

/-- `ERR_NOT_READY` from `connection.rs` line 51: the peer's well-known
"not ready" code. -/
def ERR_NOT_READY : Int := 651

/-- One round-trip outcome as seen by `query` in `connection.rs`: the
transport either fails, or the reply downcasts to the expected type, or to a
peer-reported `lite_server::Error`, or to neither. -/
inductive RawResponse (T : Type) where
  | reply (data : T)
  | liteServerError (code : Int) (message : String)
  | undecodable
  | transportFailure
deriving DecidableEq

/-- Result of the retry loop together with the sleep durations (ms) it
performed between attempts. -/
structure QueryRun (T : Type) where
  result : Except QueryError (QueryReply T)
  delays : List Nat

/-- The `loop` of `query` in `connection.rs` lines 61-84, with the attempt
outcomes supplied as an oracle indexed by the `retries` counter.  Transport
failure is `ConnectionError` (no retry); a peer error with code 651 is
retried after a 100 ms sleep while `retries < MAX_RETIRES`, then degrades to
`NotReady`; any other peer error returns `LiteServer` immediately; an
undecodable reply is `Unknown`. -/
def queryLoop (responses : Nat → RawResponse T) (retries : Nat) : QueryRun T :=
  match responses retries with
  | .transportFailure => ⟨.error .ConnectionError, []⟩
  | .reply d => ⟨.ok (.Data d), []⟩
  | .liteServerError c m =>
    if c = ERR_NOT_READY then
      if h : retries < MAX_RETIRES then
        let rest := queryLoop responses (retries + 1)
        ⟨rest.result, RETRY_INTERVAL :: rest.delays⟩
      else
        ⟨.ok .NotReady, []⟩
    else
      ⟨.error (.LiteServer c m), []⟩
  | .undecodable => ⟨.error .Unknown, []⟩
termination_by MAX_RETIRES + 1 - retries
decreasing_by omega

/-- `query` from `connection.rs` lines 41-85: the loop entered with
`retries = 0`. -/
def query (responses : Nat → RawResponse T) : QueryRun T :=
  queryLoop responses 0

/-- Concrete attempt oracle for witnesses: every attempt yields the peer's
"not ready" error. -/
def allNotReadyOracle : Nat → RawResponse Nat :=
  fun _ => .liteServerError 651 "not ready"

/-- Concrete attempt oracle for witnesses: the first attempt yields a
peer-reported error with a code other than 651. -/
def otherErrorOracle : Nat → RawResponse Nat :=
  fun _ => .liteServerError 100 "rejected"

/-- `ton_node::blockidext::BlockIdExt`: the full block identifier cached by
the chain-head cache (workchain i32, shard i64, seqno i32, two 256-bit
hashes). -/
structure BlockIdExt where
  workchain : Int
  shard : Int
  seqno : Int
  root_hash : Nat
  file_hash : Nat
deriving DecidableEq

/-- `MAX_ENQUEUED_BLOCKS` from `last_block.rs` line 103: the history ring
capacity. -/
def MAX_ENQUEUED_BLOCKS : Nat := 5

/-- `LastBlockState` from `last_block.rs` lines 89-92: the cached
`(result, fetched_at)` pair and the history ring (`VecDeque`, front =
most recent), with `Instant` modelled as a Nat timestamp. -/
structure LastBlockState where
  id : Option (Except QueryError BlockIdExt × Nat)
  blocks : List BlockIdExt

/-- The history-ring update from `get_last_block` in `last_block.rs` lines
70-81: only on a successful fetch, and only when the new seqno strictly
exceeds the current front, is the id pushed (popping the back first when at
capacity); an empty ring always accepts the id. -/
def LastBlockState.updateBlocks (blocks : List BlockIdExt)
    (id : Except QueryError BlockIdExt) : List BlockIdExt :=
  match id with
  | .error _ => blocks
  | .ok new_id =>
    match blocks.head? with
    | some latest_id =>
      if latest_id.seqno < new_id.seqno then
        new_id :: (if MAX_ENQUEUED_BLOCKS ≤ blocks.length then blocks.dropLast else blocks)
      else blocks
    | none => [new_id]

/-- Outcome of one `get_last_block` call: the returned result, the state
after the call, and whether a network query was performed. -/
structure GetLastBlockOutcome where
  result : Except QueryError BlockIdExt
  state : LastBlockState
  queried : Bool

/-- `LastBlock::get_last_block` from `last_block.rs` lines 32-86.  `now` is
the instant sampled under the read lock, `casWins` the outcome of the
`in_process` compare-exchange, and `fetch` the masterchain-info query
result.  A fresh cached value is returned without attempting the CAS; a
stale one whose CAS is lost is also returned as-is; otherwise the fetch is
performed, the cache overwritten with `(fetch, now)` and the ring updated.
The very first call (no cached value) always queries inline. -/
def get_last_block (st : LastBlockState) (threshold : Nat) (now : Nat)
    (casWins : Bool) (fetch : Except QueryError BlockIdExt) : GetLastBlockOutcome :=
  match st.id with
  | some (result, last) =>
    if now - last < threshold then
      ⟨result, st, false⟩
    else if casWins then
      ⟨fetch, ⟨some (fetch, now), LastBlockState.updateBlocks st.blocks fetch⟩, true⟩
    else
      ⟨result, st, false⟩
  | none =>
    ⟨fetch, ⟨some (fetch, now), LastBlockState.updateBlocks st.blocks fetch⟩, true⟩

/-- `LastBlock::last_cached_blocks` from `last_block.rs` lines 28-30: a
snapshot of the history ring, front (most recent) first. -/
def last_cached_blocks (st : LastBlockState) : List BlockIdExt :=
  st.blocks

/-- Invariant claimed for the history ring: bounded by the capacity and
strictly decreasing in seqno from front to back (most-recent-first). -/
def BlocksInvariant (blocks : List BlockIdExt) : Prop :=
  blocks.length ≤ MAX_ENQUEUED_BLOCKS ∧
    blocks.Pairwise (fun a b => b.seqno < a.seqno)

/-- Concrete block id used by witnesses. -/
def blk (n : Int) : BlockIdExt :=
  ⟨-1, 0, n, 0, 0⟩

/-- Concrete cache state used by witnesses: a fresh cached head and a
two-entry history ring. -/
def witnessCacheState : LastBlockState :=
  ⟨some (.ok (blk 10), 50), [blk 10, blk 7]⟩

/-- Rust `as u32` on an i64 value: truncation to the low 32 bits. -/
def castU32 (x : Int) : Nat :=
  (x % 4294967296).toNat

/-- Rust `as i64` on a u64 value: two's-complement reinterpretation. -/
def castI64ofU64 (n : Nat) : Int :=
  if n < 9223372036854775808 then (n : Int) else (n : Int) - 18446744073709551616

/-- Rust `as i32` on a u32 value: two's-complement reinterpretation. -/
def castI32ofU32 (n : Nat) : Int :=
  if n < 2147483648 then (n : Int) else (n : Int) - 4294967296

/-- Abstract handle for a `ton_types` cell produced by external decoders. -/
structure Cell where
  idx : Nat
deriving DecidableEq

/-- Opaque decoded `ton_block::AccountStuff` record carried verbatim into
the result. -/
structure AccountStuff where
  data : Nat
deriving DecidableEq

/-- `ton_block::Account`: the account record decodes either to an existing
account (`Account::Account`) or to the other variant (`Account::AccountNone`). -/
inductive Account where
  | Account (stuff : AccountStuff)
  | AccountNone
deriving DecidableEq

/-- The verified shard-account index entry
(`shard_info.last_trans_lt() / last_trans_hash()`). -/
structure ShardAccountInfo where
  last_trans_lt : Nat
  last_trans_hash : Nat
deriving DecidableEq

/-- The shard state reconstructed from the Merkle proof
(`ton_block::ShardStateUnsplit`): generation timings, and the
`read_accounts().and_then(|accounts| accounts.get(key))` lookup chain
(either step may fail structurally). -/
structure ShardStateUnsplit where
  gen_lt : Nat
  gen_utime : Nat
  accountLookup : Nat → Except Unit (Option ShardAccountInfo)

/-- `ton_block::MerkleProof` as used by the resolver: only its `proof` cell
is consumed. -/
structure MerkleProofRec where
  proof : Cell
deriving DecidableEq

/-- Oracles for the external `ton_block` / `ton_types` decoders the resolver
calls; each one is a dependency crate, not repository code. -/
structure TonEnv where
  constructAccount : List Nat → Except Unit Account
  deserializeCellsTree : List Nat → Except Unit (List Cell)
  constructMerkleProof : Cell → Except Unit MerkleProofRec
  virtualize : Cell → Nat → Cell
  constructShardState : Cell → Except Unit ShardStateUnsplit

/-- The raw `liteServer.accountState` response: account-record bytes and
proof bytes (both unverified). -/
structure LiteAccountState where
  state : List Nat
  proof : List Nat

/-- `GenTimings` from `adnl_rpc_models/src/lib.rs` lines 93-99. -/
structure GenTimings where
  gen_lt : Nat
  gen_utime : Nat
deriving DecidableEq

/-- `ExistingContract` from `adnl_rpc_models/src/lib.rs` lines 84-91. -/
structure ExistingContract where
  account : AccountStuff
  timings : GenTimings
  last_transaction_id : TransactionId
deriving DecidableEq

/-- `RawContractState` from `adnl_rpc_models/src/lib.rs` lines 76-82. -/
inductive RawContractState where
  | NotExists
  | Exists (contract : ExistingContract)
deriving DecidableEq

/-- The decode-and-verify tail of `get_contract_state` in `ton/mod.rs` lines
164-206, applied to the account-state response obtained at the chosen block.
`address` is the raw account id, `now` the wall-clock unix timestamp
(`chrono::Utc::now().timestamp()`).  Mirrors the source exactly, including
the `gen_utime: (chrono::Utc::now().timestamp() - 10) as u32` expression
that the source marks `// TEMP!!!!!, replace with ss.gen_time()`. -/
def get_contract_state_decode (env : TonEnv) (address : Nat)
    (response : LiteAccountState) (now : Int) : Except QueryError RawContractState :=
  match env.constructAccount response.state with
  | .ok (.Account account) =>
    match env.deserializeCellsTree response.proof with
    | .error _ => .error .InvalidAccountStateProof
    | .ok q_roots =>
      if h : q_roots.length = 2 then
        match env.constructMerkleProof (q_roots.get ⟨0, by omega⟩) with
        | .error _ => .error .InvalidAccountStateProof
        | .ok merkle_proof =>
          match env.constructShardState (env.virtualize merkle_proof.proof 1) with
          | .error _ => .error .InvalidAccountStateProof
          | .ok ss =>
            match ss.accountLookup address with
            | .error _ => .error .InvalidAccountStateProof
            | .ok (some shard_info) =>
              .ok (.Exists
                { account := account
                  timings := { gen_lt := ss.gen_lt, gen_utime := castU32 (now - 10) }
                  last_transaction_id :=
                    { lt := shard_info.last_trans_lt
                      hash := shard_info.last_trans_hash } })
            | .ok none => .ok .NotExists
      else .error .InvalidAccountStateProof
  | _ => .ok .NotExists

/-- The fallback candidate list from `get_contract_state` in `ton/mod.rs`
lines 142-146: the cached history (recency order) with
`skip_while(|block| block.seqno < last_block_id.seqno)` applied. -/
def fallbackBlocks (history : List BlockIdExt) (head : BlockIdExt) : List BlockIdExt :=
  history.dropWhile (fun b => b.seqno < head.seqno)

/-- The fallback retry loop from `ton/mod.rs` lines 148-156: starting from
`result = NotReady`, query each candidate in order, propagating query
errors, stopping at the first reply that has data. -/
def fallbackLoop (queryAt : BlockIdExt → Except QueryError (QueryReply D)) :
    List BlockIdExt → Except QueryError (QueryReply D)
  | [] => .ok .NotReady
  | b :: rest =>
    match queryAt b with
    | .error e => .error e
    | .ok r => if r.has_data then .ok r else fallbackLoop queryAt rest

/-- The block ids the fallback loop actually queries, in order. -/
def fallbackTrace (queryAt : BlockIdExt → Except QueryError (QueryReply D)) :
    List BlockIdExt → List BlockIdExt
  | [] => []
  | b :: rest =>
    b ::
      (match queryAt b with
      | .error _ => []
      | .ok r => if r.has_data then [] else fallbackTrace queryAt rest)

/-- The response-selection phase of `get_contract_state` in `ton/mod.rs`
lines 138-162: query at the chain head; on `NotReady`, run the fallback loop
over the skip-filtered history and convert its outcome with
`try_into_data`. -/
def resolveAccountStateReply (queryAt : BlockIdExt → Except QueryError (QueryReply D))
    (head : BlockIdExt) (history : List BlockIdExt) : Except QueryError D :=
  match queryAt head with
  | .error e => .error e
  | .ok (.Data d) => .ok d
  | .ok .NotReady =>
    match fallbackLoop queryAt (fallbackBlocks history head) with
    | .error e => .error e
    | .ok r => r.try_into_data

/-- `ton_node::blockid::BlockId`: the short id used by
`lite_server::LookupBlock`. -/
structure BlockId where
  workchain : Int
  shard : Int
  seqno : Int
deriving DecidableEq

/-- The block header fields read by the key-block walker
(`info.gen_utime()`, `info.key_block()`, `info.prev_key_block_seqno()`). -/
structure BlockInfo where
  gen_utime : Nat
  key_block : Bool
  prev_key_block_seqno : Nat
deriving DecidableEq

/-- A fetched `ton_block::Block`: an opaque payload plus the outcome of
`block.info.read_struct()`. -/
structure Block where
  data : Nat
  info : Except Unit BlockInfo

/-- `MASTERCHAIN_SHARD` from `ton/mod.rs` line 253 (a u64 constant). -/
def MASTERCHAIN_SHARD : Nat := 9223372036854775808

/-- The collaborators of `get_latest_key_block`: the chain-head cache
outcome, `query_block`, and `query_block_by_seqno` (`connection.rs` lines
8-25, one lookup-by-seqno unit). -/
structure KeyBlockEnv where
  head : Except QueryError BlockIdExt
  queryBlock : BlockIdExt → Except QueryError Block
  queryBlockBySeqno : BlockId → Except QueryError Block

/-- Outcome of `get_latest_key_block`: the returned block, the value stored
into the shared `time_diff` atomic (if execution reached it), and the
lookup-by-seqno calls issued. -/
structure KeyBlockOutcome where
  result : Except QueryError Block
  timeDiff : Option Nat
  lookups : List BlockId

/-- `get_latest_key_block` from `ton/mod.rs` lines 252-286: fetch the block
at the chain head, read its header, store
`max(now - gen_utime, 0) as u32` into `time_diff`, return the block if it is
a key block, otherwise fetch and return the block found by one
lookup-by-seqno on the masterchain at the header's previous-key-block
seqno. -/
def get_latest_key_block (env : KeyBlockEnv) (now : Int) : KeyBlockOutcome :=
  match env.head with
  | .error e => ⟨.error e, none, []⟩
  | .ok last_block_id =>
    match env.queryBlock last_block_id with
    | .error e => ⟨.error e, none, []⟩
    | .ok block =>
      match block.info with
      | .error _ => ⟨.error .InvalidBlock, none, []⟩
      | .ok info =>
        let stored := castU32 (max (now - (info.gen_utime : Int)) 0)
        if info.key_block then
          ⟨.ok block, some stored, []⟩
        else
          let id : BlockId :=
            ⟨-1, castI64ofU64 MASTERCHAIN_SHARD, castI32ofU32 info.prev_key_block_seqno⟩
          ⟨env.queryBlockBySeqno id, some stored, [id]⟩

/-- A minimal model of `serde_json::Value`. -/
inductive Json where
  | null
  | bool (b : Bool)
  | num (n : Int)
  | str (s : String)
  | arr (xs : List Json)
  | obj (fields : List (String × Json))

/-- `WebsocketResponseMessage` from `src/src/api/state.rs` lines 135-141. -/
inductive WebsocketResponseMessage where
  | Transaction (payload : Json)
  | Block (payload : Json)

/-- Whether a notification is the `Transaction` variant with a null JSON
payload. -/
def WebsocketResponseMessage.isTransactionNull : WebsocketResponseMessage → Bool
  | .Transaction .null => true
  | _ => false

/-- One tick of `transaction_monitoring` from `src/src/api/state.rs` lines
48-83, rendered as the list of `(subscriber id, message)` pushes it makes:
nothing if connection acquisition fails; otherwise, for each address whose
status query succeeds, every registered callback is sent
`Transaction(Value::Null)`; addresses whose query fails are skipped. -/
def transaction_monitoring_tick (registry : List (Nat × List (Nat × Unit)))
    (connectionOk : Bool) (queryOk : Nat → Bool) :
    List (Nat × WebsocketResponseMessage) :=
  if connectionOk then
    registry.flatMap (fun p =>
      if queryOk p.1 then
        p.2.map (fun cb => (cb.1, .Transaction .null))
      else [])
  else []

/-- Concrete verified shard state used by the C1 evaluation: generation
logical time 7, generation unix time 1000, one indexed account. -/
def c1ShardState : ShardStateUnsplit :=
  { gen_lt := 7
    gen_utime := 1000
    accountLookup := fun a => if a = 42 then .ok (some ⟨77, 88⟩) else .ok none }

/-- Concrete decoder oracles for the C1 evaluation: every step succeeds and
the proof yields `c1ShardState`. -/
def c1Env : TonEnv :=
  { constructAccount := fun _ => .ok (.Account ⟨5⟩)
    deserializeCellsTree := fun _ => .ok [⟨0⟩, ⟨1⟩]
    constructMerkleProof := fun c => .ok ⟨c⟩
    virtualize := fun c _ => c
    constructShardState := fun _ => .ok c1ShardState }

/-- Concrete decoder oracles for the C2 counterexample: the account record
bytes decode successfully, but to the wrong variant (`AccountNone`). -/
def c2Env : TonEnv :=
  { constructAccount := fun _ => .ok .AccountNone
    deserializeCellsTree := fun _ => .error ()
    constructMerkleProof := fun _ => .error ()
    virtualize := fun c _ => c
    constructShardState := fun _ => .error () }

/-- Concrete account-state query oracle for the C3 counterexample: every
block answers `NotReady`. -/
def c3Oracle : BlockIdExt → Except QueryError (QueryReply Nat) :=
  fun _ => .ok .NotReady

/-- Concrete account-state query oracle for the C3 amended witness: blocks
with seqno at most 7 have data, newer ones answer `NotReady`. -/
def c3WitnessOracle : BlockIdExt → Except QueryError (QueryReply Nat) :=
  fun b => if b.seqno ≤ 7 then .ok (.Data 5) else .ok .NotReady

/-- Concrete non-key head block for the C8 witness: its header points to
previous key block seqno 41. -/
def c8Block : Block :=
  ⟨1, .ok ⟨500, false, 41⟩⟩

/-- Concrete key block returned by the lookup in the C8 witness. -/
def c8KeyBlock : Block :=
  ⟨2, .ok ⟨600, true, 0⟩⟩

/-- Concrete collaborators for the C8 witness. -/
def c8Env : KeyBlockEnv :=
  { head := .ok (blk 100)
    queryBlock := fun _ => .ok c8Block
    queryBlockBySeqno := fun _ => .ok c8KeyBlock }

end AdnlRpc

namespace AdnlRpc

theorem queryLoop_notready_step {T : Type} (responses : Nat → RawResponse T)
    (r : Nat) (m : String) (hr : r < MAX_RETIRES)
    (h : responses r = .liteServerError ERR_NOT_READY m) :
    queryLoop responses r
      = ⟨(queryLoop responses (r + 1)).result,
         RETRY_INTERVAL :: (queryLoop responses (r + 1)).delays⟩ := by
  conv_lhs => rw [queryLoop.eq_def]
  simp [h, hr]

theorem queryLoop_notready_exhausted {T : Type} (responses : Nat → RawResponse T)
    (m : String)
    (h : responses MAX_RETIRES = .liteServerError ERR_NOT_READY m) :
    queryLoop responses MAX_RETIRES = ⟨.ok .NotReady, []⟩ := by
  conv_lhs => rw [queryLoop.eq_def]
  simp [h]

/-- Claim C9: for all pairs of `TransactionId` values, equality and ordering
are determined by the logical-time field alone: equality holds exactly when
the `lt` fields coincide, and both equality and ordering are unchanged under
any replacement of the hash fields. -/
theorem c9_transaction_id_ignores_hash :
    ∀ a b : TransactionId,
      (TransactionId.eqImpl a b = true ↔ a.lt = b.lt) ∧
      (∀ h h2 : Nat,
        TransactionId.eqImpl { lt := a.lt, hash := h } { lt := b.lt, hash := h2 }
          = TransactionId.eqImpl a b ∧
        TransactionId.cmp { lt := a.lt, hash := h } { lt := b.lt, hash := h2 }
          = TransactionId.cmp a b) := by
  intro a b
  constructor
  · simp [TransactionId.eqImpl]
  · intro h h2
    exact ⟨rfl, rfl⟩

/-- Claim C4 (failing evaluation): `try_into_data` on a `NotReady` reply
produces the `NotReady` error kind, but that kind has no arm in
`QueryError::code` from `errors.rs` — contrary to the claim that every error
kind of the taxonomy carries a stable numeric code, while all seven declared
kinds do. -/
theorem c4_notready_has_no_code :
    QueryReply.try_into_data (T := Unit) QueryReply.NotReady
        = Except.error QueryError.NotReady ∧
      QueryError.code QueryError.NotReady = none ∧
      (∀ (c : Int) (m : String), (QueryError.LiteServer c m).code.isSome) ∧
      QueryError.code QueryError.ConnectionError = some 1 ∧
      QueryError.code QueryError.FailedToSerialize = some 2 ∧
      QueryError.code QueryError.InvalidAccountStateProof = some 20 ∧
      QueryError.code QueryError.InvalidAccountState = some 21 ∧
      QueryError.code QueryError.InvalidBlock = some 30 ∧
      QueryError.code QueryError.Unknown = some 666 := by
  refine ⟨rfl, rfl, ?_, rfl, rfl, rfl, rfl, rfl, rfl⟩
  intro c m
  rfl

/-- Claim C5: if every attempt up to the retry bound decodes to the
peer-reported "not ready" error (code 651), `query` performs exactly three
retries with a 100 ms delay before each and returns the `NotReady` outcome
(a legitimate outcome, not an error); a peer-reported error with any other
code is returned immediately as a `LiteServer` error carrying the peer's
code and message, with no retry and no delay. -/
theorem c5_query_retry_protocol {T : Type} (responses : Nat → RawResponse T) :
    ((∀ i, i ≤ MAX_RETIRES → ∃ m, responses i = .liteServerError ERR_NOT_READY m) →
      query responses = ⟨.ok .NotReady, [RETRY_INTERVAL, RETRY_INTERVAL, RETRY_INTERVAL]⟩) ∧
    (∀ c m, responses 0 = .liteServerError c m → c ≠ ERR_NOT_READY →
      query responses = ⟨.error (.LiteServer c m), []⟩) := by
  constructor
  · intro hall
    obtain ⟨m0, h0⟩ := hall 0 (by norm_num [MAX_RETIRES])
    obtain ⟨m1, h1⟩ := hall 1 (by norm_num [MAX_RETIRES])
    obtain ⟨m2, h2⟩ := hall 2 (by norm_num [MAX_RETIRES])
    obtain ⟨m3, h3⟩ := hall 3 (by norm_num [MAX_RETIRES])
    have e3 : queryLoop responses 3 = ⟨.ok .NotReady, []⟩ :=
      queryLoop_notready_exhausted responses m3 h3
    have e2 := queryLoop_notready_step responses 2 m2 (by norm_num [MAX_RETIRES]) h2
    have e1 := queryLoop_notready_step responses 1 m1 (by norm_num [MAX_RETIRES]) h1
    have e0 := queryLoop_notready_step responses 0 m0 (by norm_num [MAX_RETIRES]) h0
    unfold query
    rw [e0, e1, e2, e3]
  · intro c m h0 hc
    unfold query
    conv_lhs => rw [queryLoop.eq_def]
    simp [h0, hc]

/-- Claim C5 witness: concrete runs of both branches of
`c5_query_retry_protocol`. -/
theorem c5_query_retry_protocol_witness :
    query allNotReadyOracle = ⟨.ok .NotReady, [100, 100, 100]⟩ ∧
    query otherErrorOracle = ⟨.error (.LiteServer 100 "rejected"), []⟩ := by
  constructor
  · exact (c5_query_retry_protocol allNotReadyOracle).1
      (fun i _ => ⟨"not ready", rfl⟩)
  · exact (c5_query_retry_protocol otherErrorOracle).2 100 "rejected" rfl
      (by norm_num [ERR_NOT_READY])

/-- Claim C6: a `get_last_block` call made while the elapsed time since a
prior successful cached fetch is under the freshness threshold performs no
network query, leaves the state untouched, and returns the same cached
`BlockId` result. -/
theorem c6_fresh_cache_no_query (st : LastBlockState) (threshold now : Nat)
    (casWins : Bool) (fetch : Except QueryError BlockIdExt)
    (bid : BlockIdExt) (t : Nat)
    (hid : st.id = some (.ok bid, t)) (hfresh : now - t < threshold) :
    get_last_block st threshold now casWins fetch = ⟨.ok bid, st, false⟩ := by
  simp [get_last_block, hid, hfresh]

/-- Claim C6 witness: a concrete fresh-cache call returns the cached id
with no query. -/
theorem c6_fresh_cache_no_query_witness :
    get_last_block witnessCacheState 10 55 true (.ok (blk 99))
      = ⟨.ok (blk 10), witnessCacheState, false⟩ :=
  c6_fresh_cache_no_query witnessCacheState 10 55 true (.ok (blk 99))
    (blk 10) 50 rfl (by norm_num)

theorem updateBlocks_cons (front new_id : BlockIdExt) (rest : List BlockIdExt) :
    LastBlockState.updateBlocks (front :: rest) (.ok new_id)
      = if front.seqno < new_id.seqno then
          new_id ::
            (if MAX_ENQUEUED_BLOCKS ≤ (front :: rest).length then
              (front :: rest).dropLast
            else front :: rest)
        else front :: rest := rfl

theorem updateBlocks_invariant (blocks : List BlockIdExt)
    (id : Except QueryError BlockIdExt) (h : BlocksInvariant blocks) :
    BlocksInvariant (LastBlockState.updateBlocks blocks id) := by
  obtain ⟨hlen, hpw⟩ := h
  cases id with
  | error e => exact ⟨hlen, hpw⟩
  | ok new_id =>
    cases blocks with
    | nil =>
      constructor
      · simp [LastBlockState.updateBlocks, MAX_ENQUEUED_BLOCKS]
      · simp [LastBlockState.updateBlocks]
    | cons front rest =>
      by_cases hgt : front.seqno < new_id.seqno
      · have hall : ∀ b ∈ front :: rest, b.seqno < new_id.seqno := by
          intro b hb
          rcases List.mem_cons.mp hb with hb | hb
          · exact hb ▸ hgt
          · have := (List.pairwise_cons.mp hpw).1 b hb
            omega
        by_cases hcap : MAX_ENQUEUED_BLOCKS ≤ (front :: rest).length
        · have hres : LastBlockState.updateBlocks (front :: rest) (.ok new_id)
              = new_id :: (front :: rest).dropLast := by
            rw [updateBlocks_cons, if_pos hgt, if_pos hcap]
          rw [hres]
          have hsub : (front :: rest).dropLast.Sublist (front :: rest) :=
            List.dropLast_sublist _
          constructor
          · have hdl := List.length_dropLast (front :: rest)
            simp only [List.length_cons] at hlen hdl ⊢
            omega
          · refine List.pairwise_cons.mpr ⟨?_, List.Pairwise.sublist hsub hpw⟩
            intro b hb
            exact hall b (hsub.subset hb)
        · have hres : LastBlockState.updateBlocks (front :: rest) (.ok new_id)
              = new_id :: front :: rest := by
            rw [updateBlocks_cons, if_pos hgt, if_neg hcap]
          rw [hres]
          constructor
          · simp only [List.length_cons] at hlen hcap ⊢
            omega
          · exact List.pairwise_cons.mpr ⟨hall, hpw⟩
      · have hres : LastBlockState.updateBlocks (front :: rest) (.ok new_id)
            = front :: rest := by
          simp [LastBlockState.updateBlocks, hgt]
        rw [hres]
        exact ⟨hlen, hpw⟩

/-- Claim C7: the history ring's invariant — at most 5 entries, strictly
increasing seqno towards the front — is preserved by every `get_last_block`
operation; moreover a new id is pushed only when its seqno strictly exceeds
the current front (otherwise the ring is unchanged), and when pushing at
capacity the oldest (back) entry is evicted. -/
theorem c7_history_ring_invariant (st : LastBlockState) (threshold now : Nat)
    (casWins : Bool) (fetch : Except QueryError BlockIdExt)
    (hinv : BlocksInvariant st.blocks) :
    BlocksInvariant (get_last_block st threshold now casWins fetch).state.blocks ∧
    (∀ (blocks : List BlockIdExt) (front new_id : BlockIdExt),
      blocks.head? = some front → ¬ front.seqno < new_id.seqno →
      LastBlockState.updateBlocks blocks (.ok new_id) = blocks) ∧
    (∀ (blocks : List BlockIdExt) (front new_id : BlockIdExt),
      blocks.head? = some front → front.seqno < new_id.seqno →
      MAX_ENQUEUED_BLOCKS ≤ blocks.length →
      LastBlockState.updateBlocks blocks (.ok new_id) = new_id :: blocks.dropLast) := by
  refine ⟨?_, ?_, ?_⟩
  · cases hst : st.id with
    | none =>
      simpa [get_last_block, hst] using updateBlocks_invariant st.blocks fetch hinv
    | some p =>
      obtain ⟨result, last⟩ := p
      by_cases h1 : now - last < threshold
      · simpa [get_last_block, hst, h1] using hinv
      · by_cases h2 : casWins
        · simpa [get_last_block, hst, h1, h2] using
            updateBlocks_invariant st.blocks fetch hinv
        · simpa [get_last_block, hst, h1, h2] using hinv
  · intro blocks front new_id hhead hle
    cases blocks with
    | nil => simp at hhead
    | cons f rest =>
      have hf : f = front := by simpa using hhead
      subst hf
      simp [LastBlockState.updateBlocks, hle]
  · intro blocks front new_id hhead hgt hcap
    cases blocks with
    | nil => simp at hhead
    | cons f rest =>
      have hf : f = front := by simpa using hhead
      subst hf
      rw [updateBlocks_cons, if_pos hgt, if_pos hcap]

/-- Claim C7 witness: the invariant held and is preserved at a concrete
stale-cache refresh that pushes a fresh id. -/
theorem c7_history_ring_invariant_witness :
    BlocksInvariant witnessCacheState.blocks ∧
    BlocksInvariant
      (get_last_block witnessCacheState 10 100 true (.ok (blk 12))).state.blocks := by
  have hinv : BlocksInvariant witnessCacheState.blocks := by
    constructor
    · simp [witnessCacheState, MAX_ENQUEUED_BLOCKS]
    · simp [witnessCacheState, blk]
  exact ⟨hinv,
    (c7_history_ring_invariant witnessCacheState 10 100 true (.ok (blk 12)) hinv).1⟩

/-- Claim C1 (failing evaluation): on a fully successful resolver run the
`Exists` result takes `gen_lt` from the verified shard state, but
`gen_utime` is computed as `(now - 10) as u32` from the wall clock — it is
1990 here while the verified shard state's generation unix time is 1000, so
the generation unix time is not taken from the verified shard state
(matching the source's own `// TEMP!!!!!, replace with ss.gen_time()`
comment). -/
theorem c1_gen_utime_not_from_shard_state :
    get_contract_state_decode c1Env 42 ⟨[], []⟩ 2000
        = .ok (.Exists
            { account := ⟨5⟩
              timings := { gen_lt := 7, gen_utime := 1990 }
              last_transaction_id := { lt := 77, hash := 88 } }) ∧
      c1ShardState.gen_lt = 7 ∧
      c1ShardState.gen_utime = 1000 ∧
      castU32 (2000 - 10) = 1990 ∧
      (1990 : Nat) ≠ 1000 := by
  refine ⟨rfl, rfl, rfl, rfl, by norm_num⟩

/-- Claim C2 counterexample: a raw account response that decodes
successfully but to the wrong variant makes `get_contract_state` return the
success value `NotExists`, not the error `InvalidAccountState`. -/
theorem c2_counterexample_wrong_variant :
    get_contract_state_decode c2Env 0 ⟨[], []⟩ 0 = .ok .NotExists ∧
      get_contract_state_decode c2Env 0 ⟨[], []⟩ 0
        ≠ .error .InvalidAccountState := by
  refine ⟨rfl, ?_⟩
  intro h
  exact Except.noConfusion h

/-- Claim C2 amended: for every call in which the raw account response bytes
decode successfully but to a variant other than an existing account record,
the call returns the success value `NotExists` (the same outcome as an
undecodable record); `InvalidAccountState` is not produced. -/
theorem c2_amended_wrong_variant_not_exists (env : TonEnv) (address : Nat)
    (response : LiteAccountState) (now : Int)
    (h : env.constructAccount response.state = .ok .AccountNone) :
    get_contract_state_decode env address response now = .ok .NotExists := by
  unfold get_contract_state_decode
  rw [h]

/-- Claim C2 amended witness: concrete wrong-variant decode yields
`NotExists`. -/
theorem c2_amended_wrong_variant_not_exists_witness :
    get_contract_state_decode c2Env 9 ⟨[1], [2]⟩ 3 = .ok .NotExists :=
  c2_amended_wrong_variant_not_exists c2Env 9 ⟨[1], [2]⟩ 3 rfl

/-- Claim C3 counterexample: with head seqno 10 and history ring
`[seqno 10, seqno 7]`, the fallback retries at the seqno-10 entry itself —
an entry that is not older than the originally requested head — because the
source's `skip_while(|block| block.seqno < last_block_id.seqno)` skips older
entries, not entries that fail to be older. -/
theorem c3_counterexample_head_retried :
    c3Oracle (blk 10) = .ok .NotReady ∧
      fallbackTrace c3Oracle (fallbackBlocks [blk 10, blk 7] (blk 10))
        = [blk 10, blk 7] ∧
      ¬ ((blk 10).seqno < (blk 10).seqno) := by
  refine ⟨rfl, rfl, by decide⟩

theorem fallbackLoop_all_notReady {D : Type}
    (queryAt : BlockIdExt → Except QueryError (QueryReply D))
    (l : List BlockIdExt) (h : ∀ b ∈ l, queryAt b = .ok .NotReady) :
    fallbackLoop queryAt l = .ok .NotReady := by
  induction l with
  | nil => rfl
  | cons b rest ih =>
    have hb := h b (List.mem_cons_self b rest)
    simp only [fallbackLoop, hb, QueryReply.has_data]
    exact ih (fun x hx => h x (List.mem_cons_of_mem b hx))

theorem fallbackLoop_first_data {D : Type}
    (queryAt : BlockIdExt → Except QueryError (QueryReply D)) :
    ∀ (l : List BlockIdExt) (b : BlockIdExt) (rest : List BlockIdExt) (d : D),
      (∀ x ∈ l, queryAt x = .ok .NotReady) → queryAt b = .ok (.Data d) →
      fallbackLoop queryAt (l ++ b :: rest) = .ok (.Data d) := by
  intro l
  induction l with
  | nil =>
    intro b rest d _ hb
    simp only [List.nil_append, fallbackLoop, hb, QueryReply.has_data, if_true]
  | cons x xs ih =>
    intro b rest d hall hb
    have hx := hall x (List.mem_cons_self x xs)
    simp only [List.cons_append, fallbackLoop, hx, QueryReply.has_data]
    exact ih b rest d (fun y hy => hall y (List.mem_cons_of_mem x hy)) hb

/-- Claim C3 amended: when the head query returns `NotReady` the fallback
iterates the history ring in recency order after dropping the longest
prefix of entries strictly older (by seqno) than the requested head — so an
entry equal to or newer than the head, the head itself included, is retried
— querying each remaining entry until one yields data (that data is
returned) or the candidates are exhausted, in which case `NotReady` is
surfaced as an error. -/
theorem c3_amended_fallback_search {D : Type}
    (queryAt : BlockIdExt → Except QueryError (QueryReply D))
    (head : BlockIdExt) (history : List BlockIdExt)
    (hhead : queryAt head = .ok .NotReady) :
    (∃ skipped, skipped ++ fallbackBlocks history head = history ∧
      ∀ b ∈ skipped, b.seqno < head.seqno) ∧
    ((∀ b ∈ fallbackBlocks history head, queryAt b = .ok .NotReady) →
      resolveAccountStateReply queryAt head history = .error .NotReady) ∧
    (∀ (before : List BlockIdExt) (b : BlockIdExt) (rest : List BlockIdExt) (d : D),
      fallbackBlocks history head = before ++ b :: rest →
      (∀ x ∈ before, queryAt x = .ok .NotReady) →
      queryAt b = .ok (.Data d) →
      resolveAccountStateReply queryAt head history = .ok d) := by
  refine ⟨?_, ?_, ?_⟩
  · refine ⟨history.takeWhile (fun b => b.seqno < head.seqno), ?_, ?_⟩
    · unfold fallbackBlocks
      exact List.takeWhile_append_dropWhile _ history
    · intro b hb
      have := List.mem_takeWhile_imp hb
      simpa using this
  · intro hall
    unfold resolveAccountStateReply
    rw [hhead, fallbackLoop_all_notReady queryAt _ hall]
    rfl
  · intro before b rest d heq hall hb
    unfold resolveAccountStateReply
    rw [hhead, heq, fallbackLoop_first_data queryAt before b rest d hall hb]
    rfl

/-- Claim C3 amended witness: with head seqno 10 and history
`[seqno 10, seqno 7]`, the seqno-10 entry is retried (`NotReady`) and the
seqno-7 entry's data is returned. -/
theorem c3_amended_fallback_search_witness :
    resolveAccountStateReply c3WitnessOracle (blk 10) [blk 10, blk 7]
      = .ok 5 := by
  refine (c3_amended_fallback_search c3WitnessOracle (blk 10) [blk 10, blk 7]
    rfl).2.2 [blk 10] (blk 7) [] 5 rfl ?_ rfl
  intro x hx
  have hx2 : x = blk 10 := by simpa using hx
  rw [hx2]
  rfl

/-- Claim C8: when the block at the chain head parses and is not marked as a
key block, exactly one lookup-by-seqno query is issued, restricted to the
masterchain (workchain -1, shard `0x8000000000000000 as i64`), at the
header's previous-key-block seqno, and the block that lookup returns is the
call's result. -/
theorem c8_key_block_single_hop (env : KeyBlockEnv) (now : Int)
    (head : BlockIdExt) (block : Block) (info : BlockInfo)
    (hhead : env.head = .ok head) (hblock : env.queryBlock head = .ok block)
    (hinfo : block.info = .ok info) (hkey : info.key_block = false)
    (hseq : info.prev_key_block_seqno < 2147483648) :
    (get_latest_key_block env now).lookups
        = [⟨-1, -9223372036854775808, (info.prev_key_block_seqno : Int)⟩] ∧
      (get_latest_key_block env now).result
        = env.queryBlockBySeqno
            ⟨-1, -9223372036854775808, (info.prev_key_block_seqno : Int)⟩ := by
  have hshard : castI64ofU64 MASTERCHAIN_SHARD = -9223372036854775808 := by
    norm_num [castI64ofU64, MASTERCHAIN_SHARD]
  have hcast : castI32ofU32 info.prev_key_block_seqno
      = (info.prev_key_block_seqno : Int) := by
    simp [castI32ofU32, hseq]
  constructor <;>
    simp [get_latest_key_block, hhead, hblock, hinfo, hkey, hshard, hcast]

/-- Claim C8 witness: a concrete non-key head with
`prev_key_block_seqno = 41` issues exactly one lookup at
`(-1, 0x8000000000000000 as i64, 41)` and returns that lookup's block. -/
theorem c8_key_block_single_hop_witness :
    (get_latest_key_block c8Env 1000).lookups
        = [⟨-1, -9223372036854775808, 41⟩] ∧
      (get_latest_key_block c8Env 1000).result = .ok c8KeyBlock := by
  have h := c8_key_block_single_hop c8Env 1000 (blk 100) c8Block
    ⟨500, false, 41⟩ rfl rfl rfl rfl (by norm_num)
  exact ⟨h.1, h.2⟩

/-- Claim C10: every notification a notifier tick pushes to a subscriber
channel is the `Transaction` variant carrying the null JSON payload; in
particular the `Block` variant is never sent, for every registry content,
connection outcome and per-address query outcome. -/
theorem c10_notifier_sends_only_null_transactions
    (registry : List (Nat × List (Nat × Unit))) (connectionOk : Bool)
    (queryOk : Nat → Bool) :
    (transaction_monitoring_tick registry connectionOk queryOk).all
      (fun p => p.2.isTransactionNull) = true := by
  rw [List.all_eq_true]
  intro p hp
  unfold transaction_monitoring_tick at hp
  by_cases hc : connectionOk
  · rw [if_pos hc] at hp
    rw [List.mem_flatMap] at hp
    obtain ⟨entry, _, hentry⟩ := hp
    by_cases hq : queryOk entry.1
    · rw [if_pos hq, List.mem_map] at hentry
      obtain ⟨cb, _, hcb⟩ := hentry
      rw [← hcb]
      rfl
    · rw [if_neg hq] at hentry
      exact absurd hentry (List.not_mem_nil p)
  · rw [if_neg hc] at hp
    exact absurd hp (List.not_mem_nil p)

end AdnlRpc
